import Mathlib

/-!
Shallow embedding of the appium-instruments wrapper (the `Instruments`
supervisor, its `CommandHandler` command channel, and the stream helpers
`clearBufferChars` / `lookForTraceDir`), together with proofs about the
behaviour claimed by the specification.

The JavaScript sources embedded here are `lib/main.js` (given as
`src/unnamed/part_000`) and `lib/helpers.js`.  Pure functions become Lean
functions on `String` / `List Char`; the event-driven objects become explicit
state records plus step functions that also return the list of observable
events (socket writes, callback invocations, signals) produced by the step.
Callbacks are identified by numeric ids; "the callback fired" is modelled by
an event carrying that id.
-/

namespace AppiumInstruments

/-! ## JSON values (payloads travelling over the socket) -/

/-- JSON-ish values as delivered by `JSON.parse` on the socket data.  Only the
structure needed by the router (`event` / `result` fields) matters to the
control flow; values are otherwise opaque. -/
inductive JVal where
  | null
  | bool (b : Bool)
  | num (n : Int)
  | str (s : String)
  | arr (xs : List JVal)
  | obj (fs : List (String × JVal))

/-- Field lookup on a parsed JSON object, first binding wins
(JavaScript object property access). -/
def lookupField : List (String × JVal) → String → Option JVal
  | [], _ => none
  | (k, v) :: fs, key => if k = key then some v else lookupField fs key

/-- `data.key` on a parsed value: `undefined` (`none`) unless `data` is an
object carrying the key. -/
def JVal.getField : JVal → String → Option JVal
  | .obj fs, key => lookupField fs key
  | _, _ => none

/-- `_.has(this.eventRouter, data.event)` succeeds exactly for the string tag
`"cmd"`, the single key of the router table built in the constructor. -/
def isCmdTag : JVal → Bool
  | .str s => s == "cmd"
  | _ => false

/-- `UNKNOWN_ERROR` (main.js lines 19-22): the sentinel result synthesized
when socket data cannot be parsed as JSON. -/
def UNKNOWN_ERROR : JVal :=
  .obj [("status", .num 13), ("value", .str "Error parsing socket data from instruments")]

/-- `ERR_NEVER_CHECKED_IN` (main.js line 17). -/
def ERR_NEVER_CHECKED_IN : String := "Instruments never checked in"

/-- `ERR_CRASHED_ON_STARTUP` (main.js line 18). -/
def ERR_CRASHED_ON_STARTUP : String := "Instruments crashed on startup"

/-! ## helpers.js: stream manipulation

`clearBufferChars` is `output.replace(/(\n|^)\*+\n?/g, "")`.  The global
regex replace is embedded as a four-mode character scanner:
`start` is position 0 (where the `^` alternative can fire), `normal` is
mid-line scanning, `sawNl` holds a pending `'\n'` whose fate depends on
whether a star run follows (the `(\n|^)` group consumes it), and `stars`
consumes a matched `\*+` run plus its optional trailing newline. -/

inductive CMode where
  | start
  | normal
  | sawNl
  | stars
deriving DecidableEq

/-- One pass of the `/(\n|^)\*+\n?/g` replacement over the characters. -/
def clearGo : CMode → List Char → List Char
  | .sawNl, [] => ['\n']
  | _, [] => []
  | .start, c :: cs =>
      if c = '*' then clearGo .stars cs
      else if c = '\n' then clearGo .sawNl cs
      else c :: clearGo .normal cs
  | .normal, c :: cs =>
      if c = '\n' then clearGo .sawNl cs
      else c :: clearGo .normal cs
  | .sawNl, c :: cs =>
      if c = '*' then clearGo .stars cs
      else if c = '\n' then '\n' :: clearGo .sawNl cs
      else '\n' :: c :: clearGo .normal cs
  | .stars, c :: cs =>
      if c = '*' then clearGo .stars cs
      else if c = '\n' then clearGo .normal cs
      else c :: clearGo .normal cs

/-- `helpers.clearBufferChars` (helpers.js lines 9-17): strips the buffered
`****` filler runs out of an instruments output chunk.  A pure function of
the chunk. -/
def clearBufferChars (s : String) : String :=
  String.mk (clearGo .start s.data)

/-- The literal head of the completion marker regex
`/Instruments Trace Complete.+Output : ([^\)]+)\)/`. -/
def LIT1 : List Char := "Instruments Trace Complete".data

/-- The literal `"Output : "` inside the completion marker regex. -/
def LIT2 : List Char := "Output : ".data

/-- `([^\)]+)\)`: a greedy maximal run of non-`')'` characters (at least one)
that must be followed by `')'`.  Only the maximal run can be followed by the
literal `')'`, so no further backtracking arises inside the capture. -/
def tryCapture (cs : List Char) : Option (List Char) :=
  let cap := cs.takeWhile (fun c => c != ')')
  if 1 ≤ cap.length ∧ (cs.drop cap.length).head? = some ')' then some cap else none

/-- Backtracking of the greedy `.+`: try the longest candidate length first
(`.` does not match `'\n'`, so candidates are bounded by the current line),
then shorter ones, looking for `"Output : "` followed by a capture. -/
def tryDotSplit (cs : List Char) : Nat → Option (List Char)
  | 0 => none
  | k + 1 =>
    if LIT2.isPrefixOf (cs.drop (k + 1)) then
      match tryCapture ((cs.drop (k + 1)).drop LIT2.length) with
      | some cap => some cap
      | none => tryDotSplit cs k
    else tryDotSplit cs k

/-- Attempt to match the whole marker regex at the current position. -/
def matchAt (cs : List Char) : Option (List Char) :=
  if LIT1.isPrefixOf cs then
    tryDotSplit (cs.drop LIT1.length)
      ((cs.drop LIT1.length).takeWhile (fun c => c != '\n')).length
  else none

/-- Leftmost-match scan of `RegExp.exec`. -/
def traceDirGo : List Char → Option (List Char)
  | [] => none
  | c :: cs =>
    match matchAt (c :: cs) with
    | some cap => some cap
    | none => traceDirGo cs

/-- `helpers.lookForTraceDir` (helpers.js lines 19-25): first match of
`/Instruments Trace Complete.+Output : ([^\)]+)\)/`, returning capture 1.
A pure function of the chunk. -/
def lookForTraceDir (s : String) : Option String :=
  (traceDirGo s.data).map String.mk

/-! ### A structured family of chunks for the filtering claim

A chunk is rendered from segments: genuine log lines (newline-terminated)
interleaved with filler runs (a run of `k+1` stars plus a newline, the
"liveness heartbeat" framing emitted by instruments). -/

/-- One segment of an output chunk. -/
inductive Seg where
  | line (g : String)
  | filler (k : Nat)

/-- Render segments to the raw characters of the chunk. -/
def renderSegs : List Seg → List Char
  | [] => []
  | .line g :: rest => g.data ++ '\n' :: renderSegs rest
  | .filler k :: rest => List.replicate (k + 1) '*' ++ '\n' :: renderSegs rest

/-- A genuine log line: no embedded newline and it does not itself begin with
the filler character. -/
def goodLine (g : String) : Bool :=
  g.data.all (fun c => c != '\n') && g.data.head? != some '*'

/-- All genuine lines of the segment list are good. -/
def linesOk : List Seg → Bool
  | [] => true
  | .line g :: rest => goodLine g && linesOk rest
  | .filler _ :: rest => linesOk rest

/-- No two adjacent filler runs (a single heartbeat burst is one run). -/
def noConsecFiller : List Seg → Bool
  | .filler _ :: .filler _ :: _ => false
  | _ :: rest => noConsecFiller rest
  | [] => true

/-- Well-formed segment list. -/
def segsOk (segs : List Seg) : Bool := linesOk segs && noConsecFiller segs

/-- What the regex replacement leaves of a rendered segment list when it is
scanned from the middle of a string (so a leading filler run, lacking a
preceding newline, survives).  A genuine line keeps its newline unless a
filler run follows, in which case the `(\n|^)` group consumes it. -/
def clearedMid : List Seg → List Char
  | [] => []
  | .filler k :: rest => List.replicate (k + 1) '*' ++ '\n' :: clearedMid rest
  | .line g :: .filler _ :: rest2 => g.data ++ clearedMid rest2
  | .line g :: rest => g.data ++ '\n' :: clearedMid rest

/-- What the replacement leaves of a whole chunk (position 0 can match via
the `^` alternative, so a leading filler run is removed too). -/
def cleared : List Seg → List Char
  | .filler _ :: rest => clearedMid rest
  | segs => clearedMid segs

/-! ## CommandHandler: the command channel (main.js lines 61-116) -/

/-- A queue entry `{cmd: cmd, cb: cb}`; the callback closure is identified by
a numeric id. -/
structure Entry where
  cmd : String
  cbId : Nat
deriving DecidableEq, Repr

/-- `CommandHandler` state (main.js lines 61-65).  `onReceiveCommand` holds
either `null` or the dispatch continuation installed by `waitForCommand`;
since only one continuation shape ever exists we record it as a flag. -/
structure CommandHandler where
  curCommand : Option Entry
  commandQueue : List Entry
  onReceiveCommand : Bool
deriving DecidableEq, Repr

/-- The constructor's initial state. -/
def CommandHandler.init : CommandHandler :=
  { curCommand := none, commandQueue := [], onReceiveCommand := false }

/-- Observable events of the command channel: a command written to the peer
socket, or a queued callback invoked with a result. -/
inductive CHEvent where
  | sent (cmd : String)
  | fired (cbId : Nat) (result : JVal)

/-- `CommandHandler.prototype.clean` (main.js lines 113-116): drops the
in-flight entry and the dispatch hook.  The pending queue is untouched. -/
def CommandHandler.clean (h : CommandHandler) : CommandHandler :=
  { h with curCommand := none, onReceiveCommand := false }

/-- The dispatch continuation body (main.js lines 88-95): shift the queue
head into `curCommand`, clear the hook, and write
`{nextCommand: ...}` to the connection.  Callers guarantee a non-empty
queue (`waitForCommand` checks it, `sendCommand` has just pushed). -/
def CommandHandler.dispatch (h : CommandHandler) : CommandHandler × List CHEvent :=
  match h.commandQueue with
  | [] => ({ h with curCommand := none, onReceiveCommand := false }, [])
  | e :: rest =>
      ({ h with curCommand := some e, commandQueue := rest, onReceiveCommand := false },
       [.sent e.cmd])

/-- `CommandHandler.prototype.waitForCommand` (main.js lines 98-104). -/
def CommandHandler.waitForCommand (h : CommandHandler) : CommandHandler × List CHEvent :=
  if h.commandQueue.isEmpty then ({ h with onReceiveCommand := true }, [])
  else h.dispatch

/-- `CommandHandler.prototype.handleCommand` (main.js lines 67-96), invoked
with the `result` field of the routed socket payload (`none` = the field was
absent).  A result with no in-flight command is ignored; a missing result
with an in-flight command is coerced to `false`; then the queue advances. -/
def CommandHandler.handleCommand (h : CommandHandler) (res : Option JVal) :
    CommandHandler × List CHEvent :=
  let resVal : Option JVal :=
    match res, h.curCommand with
    | some v, _ => some v
    | none, some _ => some (.bool false)
    | none, none => none
  match h.curCommand, resVal with
  | some cur, some v =>
      let p := CommandHandler.waitForCommand { h with curCommand := none }
      (p.1, .fired cur.cbId v :: p.2)
  | _, _ => h.waitForCommand

/-- `CommandHandler.prototype.sendCommand` (main.js lines 106-111): push the
entry and, if a dispatch hook is installed, invoke it immediately. -/
def CommandHandler.sendCommand (h : CommandHandler) (cmd : String) (cbId : Nat) :
    CommandHandler × List CHEvent :=
  let h2 : CommandHandler := { h with commandQueue := h.commandQueue ++ [⟨cmd, cbId⟩] }
  if h2.onReceiveCommand then h2.dispatch else (h2, [])

/-- External stimuli of the command channel: an API `sendCommand` call, or a
routed socket delivery carrying an optional `result` field. -/
inductive CHInput where
  | send (cmd : String) (cbId : Nat)
  | recv (res : Option JVal)

/-- One channel step. -/
def CHStep (h : CommandHandler) : CHInput → CommandHandler × List CHEvent
  | .send c id => h.sendCommand c id
  | .recv r => h.handleCommand r

/-- Run the channel over a stimulus list, accumulating events. -/
def CHRun (h : CommandHandler) : List CHInput → CommandHandler × List CHEvent
  | [] => (h, [])
  | inp :: rest =>
      let a := CHStep h inp
      let b := CHRun a.1 rest
      (b.1, a.2 ++ b.2)

/-- Project a channel event to the dispatched command, if any. -/
def CHEvent.sentCmd? : CHEvent → Option String
  | .sent c => some c
  | _ => none

/-- Project a channel event to the fired callback id, if any. -/
def CHEvent.firedId? : CHEvent → Option Nat
  | .fired id _ => some id
  | _ => none

/-- Commands written to the peer, in order. -/
def sents (evs : List CHEvent) : List String := evs.filterMap CHEvent.sentCmd?

/-- Callback ids fired, in order. -/
def fireds (evs : List CHEvent) : List Nat := evs.filterMap CHEvent.firedId?

/-- Entries enqueued by the stimulus list, in order. -/
def enqueued : List CHInput → List Entry
  | [] => []
  | .send c id :: rest => ⟨c, id⟩ :: enqueued rest
  | .recv _ :: rest => enqueued rest

/-- Trace invariant of the command channel: the enqueued entries split into
the already-retired ones (whose callbacks fired, in order), the in-flight
one, and the still-pending queue; dispatches cover exactly retired plus
in-flight; and a registered dispatch hook implies nothing is in flight. -/
def ChannelInv (enq : List Entry) (h : CommandHandler) (evs : List CHEvent) : Prop :=
  ∃ retired : List Entry,
    enq = retired ++ h.curCommand.toList ++ h.commandQueue ∧
    sents evs = (retired ++ h.curCommand.toList).map Entry.cmd ∧
    fireds evs = retired.map Entry.cbId ∧
    (h.onReceiveCommand = true → h.curCommand = none)

/-! ## Instruments: the process supervisor (main.js lines 118-461) -/

/-- Supervisor state.  Timers and handles are booleans ("armed" / "exists"):
`proc` is `this.proc !== null`, `procSpawned` records that a child process
with a registered `exit` listener exists for the current launch,
`routerHandler` is the `CommandHandler` object captured by `eventRouter` at
construction time, and `commandHandlerAttached` is `this.commandHandler !==
null` (both alias the same object until cleanup nulls the property). -/
structure Instruments where
  flakeyRetries : Nat
  launchTimeout : Nat
  termTimeout : Nat
  killTimeout : Nat
  ignoreStartupExit : Bool
  launchTries : Nat
  neverConnected : Bool
  launchHandlerCalledBack : Bool
  hasConnected : Bool
  didLaunch : Bool
  proc : Bool
  procSpawned : Bool
  instrumentsExited : Bool
  shutdownCb : Option Nat
  traceDir : Option String
  launchHandlerCb : Nat
  exitHandlerCb : Nat
  termTimer : Bool
  killTimer : Bool
  socketConnectTimeout : Bool
  routerHandler : CommandHandler
  commandHandlerAttached : Bool
  currentSocket : Bool
  socketServerOpen : Bool
deriving Repr

/-- Constructor options (the subset that feeds the embedded state). -/
structure Opts where
  launchTimeout : Option Nat
  flakeyRetries : Nat
  ignoreStartupExit : Bool
  isSafariLauncherApp : Bool

/-- The `Instruments` constructor (main.js lines 118-158).
`opts.launchTimeout || 90000` defaults both an absent and a `0` (falsy)
timeout. -/
def Instruments.create (o : Opts) : Instruments :=
  { flakeyRetries := o.flakeyRetries
    launchTimeout :=
      match o.launchTimeout with
      | none => 90000
      | some 0 => 90000
      | some n => n
    termTimeout := 3000
    killTimeout := 3000
    ignoreStartupExit := o.ignoreStartupExit || o.isSafariLauncherApp
    launchTries := 0
    neverConnected := false
    launchHandlerCalledBack := false
    hasConnected := false
    didLaunch := false
    proc := false
    procSpawned := false
    instrumentsExited := false
    shutdownCb := none
    traceDir := none
    launchHandlerCb := 0
    exitHandlerCb := 0
    termTimer := false
    killTimer := false
    socketConnectTimeout := false
    routerHandler := CommandHandler.init
    commandHandlerAttached := true
    currentSocket := false
    socketServerOpen := false }

/-- Observable supervisor events. -/
inductive IEvent where
  | launchCbCall (cbId : Nat) (err : Option String)
  | killProc
  | spawn
  | sigterm
  | killallInstruments
  | shutdownCbCall (cbId : Nat)
  | exitCbCall (cbId : Nat) (code : Int) (traceDir : Option String)
  | resolvePath
  | chEvent (e : CHEvent)

/-- Outcome of one `launchHandler` invocation: the stored launch callback was
invoked, a transparent relaunch was requested, or the call was ignored
because the callback had already fired. -/
inductive LHRes where
  | calledBack
  | retrying
  | ignored
deriving DecidableEq

/-- `Instruments.prototype.launchHandler` (main.js lines 184-211), one
invocation.  `this.killProc()` is invoked on the error paths; its method
body is not among the given sources (see `killProcEvent`), so only its kill
signal is recorded. -/
def Instruments.launchHandler1 (i : Instruments) (err : Option String) :
    Instruments × List IEvent × LHRes :=
  if i.launchHandlerCalledBack then (i, [], .ignored)
  else
    let i2 : Instruments := { i with socketConnectTimeout := false }
    match err with
    | none =>
        ({ i2 with didLaunch := true, neverConnected := false, launchHandlerCalledBack := true },
         [.launchCbCall i2.launchHandlerCb none], .calledBack)
    | some m =>
        if i2.launchTries < i2.flakeyRetries ∧
            (m = ERR_NEVER_CHECKED_IN ∨ m = ERR_CRASHED_ON_STARTUP) then
          ({ i2 with launchTries := i2.launchTries + 1 }, [.killProc], .retrying)
        else
          ({ i2 with launchHandlerCalledBack := true },
           [.killProc, .launchCbCall i2.launchHandlerCb (some m)], .calledBack)

/-- Modelled from the spec: `Instruments.prototype.killProc` is called by the
retry path (main.js line 197), the error path (line 205) and the
never-connect timeout (line 228), but its method body is not among the given
sources.  Per the spec's flakey-retry step it "forcibly kill[s] any
remaining child"; it is modelled as the `killProc` event alone, leaving the
supervisor bookkeeping untouched. -/
def killProcEvent : IEvent := .killProc

/-- The synchronous part of `Instruments.prototype.launch` (main.js lines
328-367): reset the exit latch, spawn the child (registering its `exit`
listener) and arm the launch timeout. -/
def Instruments.launchSync (i : Instruments) : Instruments × List IEvent :=
  ({ i with instrumentsExited := false, proc := true, procSpawned := true,
            socketConnectTimeout := true }, [.spawn])

/-- The launch/retry loop: feed `launchHandler` the outcome of each launch
attempt in turn (`none` = instruments checked in; `some m` = the attempt
failed with error message `m`), relaunching while it requests a retry. -/
def runLaunch (i : Instruments) : List (Option String) → Instruments × List IEvent
  | [] => (i, [])
  | o :: rest =>
      let s := i.launchHandler1 o
      if s.2.2 = LHRes.retrying then
        let l := s.1.launchSync
        let r := runLaunch l.1 rest
        (r.1, s.2.1 ++ l.2 ++ r.2)
      else (s.1, s.2.1)

/-- The synchronous prefix of `Instruments.prototype.start` (main.js lines
162-182): the already-launched guard, then storing the callbacks and
starting path resolution. -/
def Instruments.start1 (i : Instruments) (launchCbId exitCbId : Nat) :
    Instruments × List IEvent :=
  if i.didLaunch then
    (i, [.launchCbCall launchCbId (some "Called start() but we already launched")])
  else
    ({ i with launchHandlerCb := launchCbId, exitHandlerCb := exitCbId }, [.resolvePath])

/-- `Instruments.prototype.termProc` (main.js lines 213-223): if a child
exists, arm the termination timer and send SIGTERM. -/
def Instruments.termProc (i : Instruments) : Instruments × List IEvent :=
  if i.proc then ({ i with termTimer := true }, [.sigterm]) else (i, [])

/-- `Instruments.prototype.shutdown` (main.js lines 454-457). -/
def Instruments.shutdown1 (i : Instruments) (cbId : Nat) : Instruments × List IEvent :=
  let p := i.termProc
  ({ p.1 with shutdownCb := some cbId }, p.2)

/-- `Instruments.prototype.cleanupInstruments` (main.js lines 431-446):
release the child handle, `clean()` the command handler and null the
`commandHandler` property (the `eventRouter` binding to the object
survives), and close the client socket plus the server when a client socket
is live. -/
def Instruments.cleanupInstruments (i : Instruments) : Instruments :=
  { i with proc := false,
           routerHandler := i.routerHandler.clean,
           commandHandlerAttached := false,
           socketServerOpen := if i.currentSocket then false else i.socketServerOpen,
           currentSocket := false }

/-- `Instruments.prototype.onInstrumentsExit` (main.js lines 397-429):
disarm timers, classify the exit (never-connected / startup crash feed
`launchHandler`), and otherwise clean up and invoke the shutdown or exit
callback. -/
def Instruments.onInstrumentsExit (i : Instruments) (code : Int) :
    Instruments × List IEvent × LHRes :=
  let i2 : Instruments := { i with termTimer := false, killTimer := false }
  if i2.neverConnected then
    Instruments.launchHandler1 { i2 with neverConnected := false }
      (some ERR_NEVER_CHECKED_IN)
  else if i2.didLaunch = false ∧ i2.ignoreStartupExit = false then
    i2.launchHandler1 (some ERR_CRASHED_ON_STARTUP)
  else
    let i3 := i2.cleanupInstruments
    if i3.ignoreStartupExit then i3.launchHandler1 none
    else
      match i3.shutdownCb with
      | some cb => ({ i3 with shutdownCb := none }, [.shutdownCbCall cb], .ignored)
      | none => (i3, [.exitCbCall i3.exitHandlerCb code i3.traceDir], .ignored)

/-- Asynchronous stimuli of the process-management part of a session: the
child's `exit` event, or the termination timer firing. -/
inductive SInput where
  | exitEvt (code : Int)
  | termFire

/-- One session step.  The `exit` event reaches `onInstrumentsExit` only when
a child was spawned and the `instrumentsExited` latch (main.js lines
361-366) is not yet set; a requested retry performs the synchronous part of
the relaunch.  The termination timer runs `helpers.killProc` (a forceful
`killall`). -/
def Instruments.sessionStep (i : Instruments) : SInput → Instruments × List IEvent
  | .exitEvt code =>
      if i.procSpawned ∧ i.instrumentsExited = false then
        let r := Instruments.onInstrumentsExit { i with instrumentsExited := true } code
        if r.2.2 = LHRes.retrying then
          let l := r.1.launchSync
          (l.1, r.2.1 ++ l.2)
        else (r.1, r.2.1)
      else (i, [])
  | .termFire =>
      if i.termTimer then ({ i with termTimer := false }, [.killallInstruments])
      else (i, [])

/-- Run the session over a stimulus list, accumulating events. -/
def Instruments.sessionRun (i : Instruments) : List SInput → Instruments × List IEvent
  | [] => (i, [])
  | s :: rest =>
      let a := i.sessionStep s
      let b := a.1.sessionRun rest
      (b.1, a.2 ++ b.2)

/-- The socket `end` handler (main.js lines 277-300): the buffered bytes are
parsed as JSON (`parsed = none` models a parse failure, which synthesizes
`{event: 'cmd', result: UNKNOWN_ERROR}`); payloads without an `event` field
or with an unknown tag are logged and dropped; a `cmd` payload is routed to
`handleCommand` of the handler object bound in `eventRouter`. -/
def Instruments.onSocketEnd (i : Instruments) (parsed : Option JVal) :
    Instruments × List IEvent :=
  let data : JVal :=
    match parsed with
    | some v => v
    | none => .obj [("event", .str "cmd"), ("result", UNKNOWN_ERROR)]
  match data.getField "event" with
  | none => (i, [])
  | some tag =>
      if isCmdTag tag then
        let p := i.routerHandler.handleCommand (data.getField "result")
        ({ i with routerHandler := p.1 }, p.2.map IEvent.chEvent)
      else (i, [])

/-- `Instruments.prototype.sendCommand` (main.js lines 448-450):
`this.commandHandler.sendCommand(...)`.  After cleanup the property is
`null`, so the call throws (`none`) instead of queueing. -/
def Instruments.sendCommandI (i : Instruments) (cmd : String) (cbId : Nat) :
    Option (Instruments × List IEvent) :=
  if i.commandHandlerAttached then
    let p := i.routerHandler.sendCommand cmd cbId
    some ({ i with routerHandler := p.1 }, p.2.map IEvent.chEvent)
  else none

/-- Count of launch-callback invocations in an event trace. -/
def launchCbCount (evs : List IEvent) : Nat :=
  evs.countP (fun e => match e with | .launchCbCall _ _ => true | _ => false)

/-- Count of shutdown-callback invocations in an event trace. -/
def shutdownCbCount (evs : List IEvent) : Nat :=
  evs.countP (fun e => match e with | .shutdownCbCall _ => true | _ => false)

/-- Callback ids fired on the command channel, seen at the session level. -/
def firedsI (evs : List IEvent) : List Nat :=
  evs.filterMap (fun e => match e with | .chEvent c => c.firedId? | _ => none)

/-- No sequence of child-exit / termination-timer stimuli can ever invoke the
shutdown callback from this state. -/
def shutdownCbNeverFires (i : Instruments) : Prop :=
  ∀ inputs : List SInput, shutdownCbCount (i.sessionRun inputs).2 = 0

/-- Routed payload of a peer turn that carries no `result` field. -/
def cmdNoResult : JVal := .obj [("event", .str "cmd")]

/-- Routed payload of a peer turn carrying result `v`. -/
def cmdWithResult (v : JVal) : JVal := .obj [("event", .str "cmd"), ("result", v)]

/-- Whether the segment list does not begin with a filler run. -/
def notFillerHead : List Seg → Bool
  | .filler _ :: _ => false
  | _ => true

/-- The characters between the two literals in a real completion-marker line
`Instruments Trace Complete (Duration : 23.764191s; Output : <path>)`. -/
def MIDA : List Char := " (Duration : 23.764191s; ".data

/-- A complete marker line up to the artifact path. -/
def MARKER : String := "Instruments Trace Complete (Duration : 23.764191s; Output : "


theorem sentCmd?_sent (c : String) : CHEvent.sentCmd? (.sent c) = some c := rfl

theorem sentCmd?_fired (id : Nat) (v : JVal) : CHEvent.sentCmd? (.fired id v) = none := rfl

theorem firedId?_sent (c : String) : CHEvent.firedId? (.sent c) = none := rfl

theorem firedId?_fired (id : Nat) (v : JVal) : CHEvent.firedId? (.fired id v) = some id := rfl

theorem sents_append (a b : List CHEvent) : sents (a ++ b) = sents a ++ sents b :=
  List.filterMap_append a b _

theorem fireds_append (a b : List CHEvent) : fireds (a ++ b) = fireds a ++ fireds b :=
  List.filterMap_append a b _

theorem enqueued_cons (inp : CHInput) (rest : List CHInput) :
    enqueued (inp :: rest) = enqueued [inp] ++ enqueued rest := by
  cases inp <;> rfl

theorem channelInv_init : ChannelInv [] CommandHandler.init [] := by
  refine ⟨[], ?_, ?_, ?_, ?_⟩ <;> simp [CommandHandler.init, sents, fireds]

theorem channelInv_step (enq : List Entry) (h : CommandHandler) (evs : List CHEvent)
    (inp : CHInput) (hI : ChannelInv enq h evs) :
    ChannelInv (enq ++ enqueued [inp]) (CHStep h inp).1 (evs ++ (CHStep h inp).2) := by
  obtain ⟨R, hEnq, hSents, hFireds, hHook⟩ := hI
  cases inp with
  | send c id =>
    by_cases hrc : h.onReceiveCommand
    · have hcur : h.curCommand = none := hHook hrc
      cases hQ : h.commandQueue with
      | nil =>
        refine ⟨R, ?_, ?_, ?_, ?_⟩ <;>
          simp_all [CHStep, CommandHandler.sendCommand, CommandHandler.dispatch,
            enqueued, sents_append, fireds_append, sents, fireds,
            sentCmd?_sent, sentCmd?_fired, firedId?_sent, firedId?_fired]
      | cons a Q2 =>
        refine ⟨R, ?_, ?_, ?_, ?_⟩ <;>
          simp_all [CHStep, CommandHandler.sendCommand, CommandHandler.dispatch,
            enqueued, sents_append, fireds_append, sents, fireds,
            sentCmd?_sent, sentCmd?_fired, firedId?_sent, firedId?_fired]
    · refine ⟨R, ?_, ?_, ?_, ?_⟩ <;>
        simp_all [CHStep, CommandHandler.sendCommand, enqueued, sents_append,
          fireds_append, sents, fireds, sentCmd?_sent, sentCmd?_fired, firedId?_sent,
          firedId?_fired]
  | recv r =>
    cases hcur : h.curCommand with
    | some cur =>
      cases hQ : h.commandQueue with
      | nil =>
        refine ⟨R ++ [cur], ?_, ?_, ?_, ?_⟩ <;>
          cases r <;>
          simp_all [CHStep, CommandHandler.handleCommand, CommandHandler.waitForCommand,
            CommandHandler.dispatch, enqueued, sents_append, fireds_append, sents, fireds,
            sentCmd?_sent, sentCmd?_fired, firedId?_sent, firedId?_fired]
      | cons a Q2 =>
        refine ⟨R ++ [cur], ?_, ?_, ?_, ?_⟩ <;>
          cases r <;>
          simp_all [CHStep, CommandHandler.handleCommand, CommandHandler.waitForCommand,
            CommandHandler.dispatch, enqueued, sents_append, fireds_append, sents, fireds,
            sentCmd?_sent, sentCmd?_fired, firedId?_sent, firedId?_fired]
    | none =>
      cases hQ : h.commandQueue with
      | nil =>
        refine ⟨R, ?_, ?_, ?_, ?_⟩ <;>
          cases r <;>
          simp_all [CHStep, CommandHandler.handleCommand, CommandHandler.waitForCommand,
            CommandHandler.dispatch, enqueued, sents_append, fireds_append, sents, fireds,
            sentCmd?_sent, sentCmd?_fired, firedId?_sent, firedId?_fired]
      | cons a Q2 =>
        refine ⟨R, ?_, ?_, ?_, ?_⟩ <;>
          cases r <;>
          simp_all [CHStep, CommandHandler.handleCommand, CommandHandler.waitForCommand,
            CommandHandler.dispatch, enqueued, sents_append, fireds_append, sents, fireds,
            sentCmd?_sent, sentCmd?_fired, firedId?_sent, firedId?_fired]


theorem channelInv_run (inputs : List CHInput) :
    ∀ (enq : List Entry) (h : CommandHandler) (evs : List CHEvent),
      ChannelInv enq h evs →
      ChannelInv (enq ++ enqueued inputs) (CHRun h inputs).1 (evs ++ (CHRun h inputs).2) := by
  induction inputs with
  | nil => intro enq h evs hI; simpa [CHRun, enqueued] using hI
  | cons inp rest ih =>
    intro enq h evs hI
    have h1 := channelInv_step enq h evs inp hI
    have h2 := ih (enq ++ enqueued [inp]) (CHStep h inp).1 (evs ++ (CHStep h inp).2) h1
    simpa [CHRun, enqueued_cons inp rest, List.append_assoc] using h2

/-- C1: for every sequence of `sendCommand` calls and peer deliveries (in
particular those issued before any result arrives), the commands written to
the peer form a prefix of the enqueued commands in enqueue (FIFO) order; at
most one command is ever in flight (dispatches never outnumber fired
callbacks by more than one); and, when the enqueued callbacks are distinct,
each callback fires at most once. -/
theorem commandsFifoSingleFlightOnce (inputs : List CHInput)
    (hnd : ((enqueued inputs).map Entry.cbId).Nodup) :
    sents (CHRun CommandHandler.init inputs).2 <+: (enqueued inputs).map Entry.cmd ∧
    (∀ id : Nat, (fireds (CHRun CommandHandler.init inputs).2).count id ≤ 1) ∧
    (fireds (CHRun CommandHandler.init inputs).2).length ≤
      (sents (CHRun CommandHandler.init inputs).2).length ∧
    (sents (CHRun CommandHandler.init inputs).2).length ≤
      (fireds (CHRun CommandHandler.init inputs).2).length + 1 := by
  have hI := channelInv_run inputs [] CommandHandler.init [] channelInv_init
  simp only [List.nil_append] at hI
  obtain ⟨R, hEnq, hSents, hFireds, hHook⟩ := hI
  set st := (CHRun CommandHandler.init inputs).1 with hst
  constructor
  · refine ⟨st.commandQueue.map Entry.cmd, ?_⟩
    rw [hSents, hEnq]
    simp [List.map_append]
  constructor
  · intro id
    have hsub : (R.map Entry.cbId) <+: ((enqueued inputs).map Entry.cbId) := by
      rw [hEnq]; exact ⟨(st.curCommand.toList ++ st.commandQueue).map Entry.cbId, by
        simp [List.map_append]⟩
    have hndR : (R.map Entry.cbId).Nodup := hsub.sublist.nodup hnd
    rw [hFireds]
    exact (List.nodup_iff_count_le_one.mp hndR) id
  constructor
  · rw [hFireds, hSents]
    simp
  · rw [hFireds, hSents]
    have : st.curCommand.toList.length ≤ 1 := by cases st.curCommand <;> simp
    simp only [List.length_map, List.length_append]
    omega

/-- Witness for C1: a concrete run with two commands enqueued before the
peer's first turn. -/
theorem commandsFifoSingleFlightOnce_witness :
    sents (CHRun CommandHandler.init
        [CHInput.send "a" 1, CHInput.send "b" 2, CHInput.recv none,
         CHInput.recv (some (JVal.bool true)), CHInput.recv (some (JVal.bool true))]).2 <+:
      (enqueued [CHInput.send "a" 1, CHInput.send "b" 2, CHInput.recv none,
         CHInput.recv (some (JVal.bool true)), CHInput.recv (some (JVal.bool true))]).map Entry.cmd ∧
    (fireds (CHRun CommandHandler.init
        [CHInput.send "a" 1, CHInput.send "b" 2, CHInput.recv none,
         CHInput.recv (some (JVal.bool true)), CHInput.recv (some (JVal.bool true))]).2).count 1 ≤ 1 := by
  refine ⟨(commandsFifoSingleFlightOnce _ (by decide)).1,
          (commandsFifoSingleFlightOnce _ (by decide)).2.1 1⟩


theorem launchHandler1_ignored (i : Instruments) (e : Option String)
    (h : i.launchHandlerCalledBack = true) :
    i.launchHandler1 e = (i, [], LHRes.ignored) := by
  simp [Instruments.launchHandler1, h]

theorem launchCbCount_append (a b : List IEvent) :
    launchCbCount (a ++ b) = launchCbCount a + launchCbCount b :=
  List.countP_append _ a b

/-- C2: for every `start` whose launch callback has not yet fired, feeding
the launch/retry loop enough attempt outcomes invokes the launch callback
(`onReady`) exactly once, no matter how many flakey retries occur in
between, and every later `launchHandler` invocation fires no callback. -/
theorem onReadyExactlyOnce (i : Instruments) (os : List (Option String))
    (h1 : i.launchHandlerCalledBack = false)
    (h2 : i.flakeyRetries - i.launchTries < os.length) :
    launchCbCount (runLaunch i os).2 = 1 ∧
    (runLaunch i os).1.launchHandlerCalledBack = true ∧
    ∀ e : Option String, launchCbCount ((runLaunch i os).1.launchHandler1 e).2.1 = 0 := by
  induction os generalizing i with
  | nil => simp at h2
  | cons o rest ih =>
    cases o with
    | none =>
      refine ⟨?_, ?_, ?_⟩ <;>
        simp [runLaunch, Instruments.launchHandler1, h1, launchCbCount,
          launchHandler1_ignored]
    | some m =>
      by_cases hc : i.launchTries < i.flakeyRetries ∧
          (m = ERR_NEVER_CHECKED_IN ∨ m = ERR_CRASHED_ON_STARTUP)
      · -- retry branch
        have hlen : i.flakeyRetries - (i.launchTries + 1) < rest.length := by
          simp at h2
          omega
        have hrec := ih (Instruments.launchSync
            { { i with socketConnectTimeout := false } with
              launchTries := { i with socketConnectTimeout := false }.launchTries + 1 }).1
          (by simp [Instruments.launchSync, h1]) (by simpa [Instruments.launchSync] using hlen)
        refine ⟨?_, ?_, ?_⟩ <;>
          simp_all [runLaunch, Instruments.launchHandler1, h1, hc, launchCbCount_append,
            Instruments.launchSync, launchCbCount]
      · refine ⟨?_, ?_, ?_⟩ <;>
          simp [runLaunch, Instruments.launchHandler1, h1, hc, launchCbCount,
            launchHandler1_ignored]


theorem spawnMsg_not_retryable (m : String) :
    ¬("Unable to spawn instruments: " ++ m = ERR_NEVER_CHECKED_IN ∨
      "Unable to spawn instruments: " ++ m = ERR_CRASHED_ON_STARTUP) := by
  rintro (h | h) <;>
  · have h2 := congrArg (fun s => s.data.head?) h
    simp [String.data_append, ERR_NEVER_CHECKED_IN, ERR_CRASHED_ON_STARTUP] at h2

/-- C5: the retry count never exceeds the configured flakey-retry budget
(it is bumped only when below the budget and the error is the
never-checked-in or startup-crash message), and a spawn failure
("Unable to spawn instruments: ...") is surfaced through the launch callback
immediately, without consuming a retry. -/
theorem retryBudgetRespected :
    (∀ (i : Instruments) (os : List (Option String)),
        (runLaunch i os).1.launchTries ≤ max i.launchTries i.flakeyRetries) ∧
    (∀ (i : Instruments) (m : String), i.launchHandlerCalledBack = false →
        (i.launchHandler1 (some ("Unable to spawn instruments: " ++ m))).2.2 =
          LHRes.calledBack ∧
        (i.launchHandler1 (some ("Unable to spawn instruments: " ++ m))).1.launchTries =
          i.launchTries ∧
        (i.launchHandler1 (some ("Unable to spawn instruments: " ++ m))).2.1 =
          [.killProc,
           .launchCbCall i.launchHandlerCb (some ("Unable to spawn instruments: " ++ m))]) := by
  constructor
  · intro i os
    induction os generalizing i with
    | nil => simp [runLaunch]
    | cons o rest ih =>
      by_cases hcb : i.launchHandlerCalledBack
      · simp [runLaunch, Instruments.launchHandler1, hcb]
      · cases o with
        | none =>
          simp [runLaunch, Instruments.launchHandler1, hcb]
        | some m =>
          by_cases hc : i.launchTries < i.flakeyRetries ∧
              (m = ERR_NEVER_CHECKED_IN ∨ m = ERR_CRASHED_ON_STARTUP)
          · have hrec := ih (Instruments.launchSync
                { { i with socketConnectTimeout := false } with
                  launchTries := i.launchTries + 1 }).1
            simp only [runLaunch, Instruments.launchHandler1, hcb, Bool.false_eq_true,
              if_false, if_pos hc, Instruments.launchSync] at hrec ⊢
            simp at hrec ⊢
            omega
          · simp [runLaunch, Instruments.launchHandler1, hcb, hc]
  · intro i m h1
    have hne : ¬(i.launchTries < i.flakeyRetries ∧
        ("Unable to spawn instruments: " ++ m = ERR_NEVER_CHECKED_IN ∨
         "Unable to spawn instruments: " ++ m = ERR_CRASHED_ON_STARTUP)) :=
      fun hh => spawnMsg_not_retryable m hh.2
    simp [Instruments.launchHandler1, h1, hne]


/-- Witness for C2: retry budget 2, two flakey failures, then a final
failure; the callback fires exactly once. -/
theorem onReadyExactlyOnce_witness :
    launchCbCount (runLaunch (Instruments.create ⟨none, 2, false, false⟩)
        [some ERR_NEVER_CHECKED_IN, some ERR_CRASHED_ON_STARTUP,
         some ERR_NEVER_CHECKED_IN]).2 = 1 ∧
    (runLaunch (Instruments.create ⟨none, 2, false, false⟩)
        [some ERR_NEVER_CHECKED_IN, some ERR_CRASHED_ON_STARTUP,
         some ERR_NEVER_CHECKED_IN]).1.launchHandlerCalledBack = true ∧
    launchCbCount ((runLaunch (Instruments.create ⟨none, 2, false, false⟩)
        [some ERR_NEVER_CHECKED_IN, some ERR_CRASHED_ON_STARTUP,
         some ERR_NEVER_CHECKED_IN]).1.launchHandler1
          (some ERR_CRASHED_ON_STARTUP)).2.1 = 0 := by
  refine ⟨(onReadyExactlyOnce _ _ rfl (by decide)).1,
          (onReadyExactlyOnce _ _ rfl (by decide)).2.1,
          (onReadyExactlyOnce _ _ rfl (by decide)).2.2 _⟩

/-- Witness for C5: budget 2 with four failures stays at 2 retries, and a
concrete spawn failure calls back at once. -/
theorem retryBudgetRespected_witness :
    (runLaunch (Instruments.create ⟨none, 2, false, false⟩)
        [some ERR_NEVER_CHECKED_IN, some ERR_NEVER_CHECKED_IN, some ERR_NEVER_CHECKED_IN,
         some ERR_NEVER_CHECKED_IN]).1.launchTries ≤
      max (Instruments.create ⟨none, 2, false, false⟩).launchTries
        (Instruments.create ⟨none, 2, false, false⟩).flakeyRetries ∧
    ((Instruments.create ⟨none, 2, false, false⟩).launchHandler1
        (some ("Unable to spawn instruments: " ++ "spawn ENOENT"))).2.2 = LHRes.calledBack ∧
    ((Instruments.create ⟨none, 2, false, false⟩).launchHandler1
        (some ("Unable to spawn instruments: " ++ "spawn ENOENT"))).1.launchTries =
      (Instruments.create ⟨none, 2, false, false⟩).launchTries :=
  ⟨retryBudgetRespected.1 _ _,
   (retryBudgetRespected.2 _ "spawn ENOENT" rfl).1,
   (retryBudgetRespected.2 _ "spawn ENOENT" rfl).2.1⟩

/-- C3 (amended): calling `start` again after a launch has completed
(`didLaunch` set) fails with the "already launched" error delivered to the
new callback and leaves the state untouched.  As the counterexample
`secondStartBeforeLaunchNotRejected` shows, a second `start` issued before
the first launch completes is not rejected: the guard only checks
`didLaunch`, so the call overwrites the stored callbacks and re-runs
initialization. -/
theorem secondStartAfterLaunchFails (i : Instruments) (a b : Nat)
    (h : i.didLaunch = true) :
    i.start1 a b = (i, [.launchCbCall a (some "Called start() but we already launched")]) := by
  simp [Instruments.start1, h]

/-- Witness for C3: a launched session rejects a second `start`
unchanged. -/
theorem secondStartAfterLaunchFails_witness :
    ({ Instruments.create ⟨none, 0, false, false⟩ with didLaunch := true } : Instruments).start1 3 4
      = ({ Instruments.create ⟨none, 0, false, false⟩ with didLaunch := true },
         [.launchCbCall 3 (some "Called start() but we already launched")]) :=
  secondStartAfterLaunchFails _ 3 4 rfl

/-- Counterexample for C3 as stated: immediately after a first `start`
(launch not yet complete), a second `start` does not fail with the
"already launched" error (it emits only the path-resolution step) and has
side effects (the stored launch callback changes from 1 to 3). -/
theorem secondStartBeforeLaunchNotRejected :
    ((((Instruments.create ⟨none, 0, false, false⟩).start1 1 2).1.start1 3 4)).2
        = [IEvent.resolvePath] ∧
    ((((Instruments.create ⟨none, 0, false, false⟩).start1 1 2).1.start1 3 4)).1.launchHandlerCb
        = 3 ∧
    (((Instruments.create ⟨none, 0, false, false⟩).start1 1 2)).1.launchHandlerCb = 1 :=
  ⟨rfl, rfl, rfl⟩

theorem noSpawn_no_shutdownCb (inputs : List SInput) :
    ∀ i : Instruments, i.procSpawned = false →
      shutdownCbCount (i.sessionRun inputs).2 = 0 := by
  induction inputs with
  | nil => intro i _; simp [Instruments.sessionRun, shutdownCbCount]
  | cons s rest ih =>
    intro i hps
    cases s with
    | exitEvt code =>
      have hguard : ¬(i.procSpawned ∧ i.instrumentsExited = false) := by simp [hps]
      simp [Instruments.sessionRun, Instruments.sessionStep, hguard, ih i hps]
    | termFire =>
      by_cases ht : i.termTimer
      · simp [Instruments.sessionRun, Instruments.sessionStep, ht, shutdownCbCount,
          ih { i with termTimer := false } hps]
        simpa [shutdownCbCount] using ih { i with termTimer := false } hps
      · simp [Instruments.sessionRun, Instruments.sessionStep, ht, ih i hps]

/-- C4: evaluation at the failing input.  With a running, launched child,
`shutdown` sends SIGTERM and the eventual exit invokes `onDown` exactly once
(a duplicate exit event is latched out); if the termination timer fires
first, the forceful `killall` is issued and `onDown` still fires exactly
once.  But for the claim's no-child case (shutdown before start, or after
termination) the code merely records the callback: no signal or timer is
armed and no sequence of child-exit / timer events can ever invoke it,
contradicting the claim (and the repo's own
"shutdown without startup" test, which expects the callback). -/
theorem shutdownCallbackBehaviour :
    (({ Instruments.create ⟨none, 0, false, false⟩ with
        proc := true, procSpawned := true, didLaunch := true } : Instruments).shutdown1 7).2
      = [IEvent.sigterm] ∧
    shutdownCbCount
      (((({ Instruments.create ⟨none, 0, false, false⟩ with
          proc := true, procSpawned := true, didLaunch := true } : Instruments).shutdown1 7).1).sessionRun
        [SInput.exitEvt 0, SInput.exitEvt 0]).2 = 1 ∧
    (((({ Instruments.create ⟨none, 0, false, false⟩ with
          proc := true, procSpawned := true, didLaunch := true } : Instruments).shutdown1 7).1).sessionRun
        [SInput.termFire, SInput.exitEvt 0]).2
      = [IEvent.killallInstruments, IEvent.shutdownCbCall 7] ∧
    ((Instruments.create ⟨none, 0, false, false⟩).shutdown1 5).2 = [] ∧
    ((Instruments.create ⟨none, 0, false, false⟩).shutdown1 5).1.shutdownCb = some 5 ∧
    shutdownCbNeverFires ((Instruments.create ⟨none, 0, false, false⟩).shutdown1 5).1 :=
  ⟨rfl, rfl, rfl, rfl, rfl, fun inputs => noSpawn_no_shutdownCb inputs _ rfl⟩


/-- C6: when the peer's routed `cmd` payload carries no `result` field while
a command is in flight, that command's callback fires with the defined
default `false` (the head event), and the queue advances: the next pending
entry is dispatched, or the dispatch hook is registered when none is
pending. -/
theorem missingResultFiresFalse (i : Instruments) (e : Entry)
    (h : i.routerHandler.curCommand = some e) :
    ((i.onSocketEnd (some cmdNoResult)).2).head?
        = some (.chEvent (.fired e.cbId (.bool false))) ∧
    (i.routerHandler.commandQueue = [] →
      (i.onSocketEnd (some cmdNoResult)).1.routerHandler.curCommand = none ∧
      (i.onSocketEnd (some cmdNoResult)).1.routerHandler.onReceiveCommand = true ∧
      (i.onSocketEnd (some cmdNoResult)).2 = [.chEvent (.fired e.cbId (.bool false))]) ∧
    (∀ (a : Entry) (q : List Entry), i.routerHandler.commandQueue = a :: q →
      (i.onSocketEnd (some cmdNoResult)).1.routerHandler.curCommand = some a ∧
      (i.onSocketEnd (some cmdNoResult)).1.routerHandler.commandQueue = q ∧
      (i.onSocketEnd (some cmdNoResult)).2
        = [.chEvent (.fired e.cbId (.bool false)), .chEvent (.sent a.cmd)]) := by
  refine ⟨?_, ?_, ?_⟩
  · simp [Instruments.onSocketEnd, cmdNoResult, JVal.getField, lookupField, isCmdTag,
      CommandHandler.handleCommand, h, CommandHandler.waitForCommand, CommandHandler.dispatch]
  · intro hq
    simp [Instruments.onSocketEnd, cmdNoResult, JVal.getField, lookupField, isCmdTag,
      CommandHandler.handleCommand, h, hq, CommandHandler.waitForCommand,
      CommandHandler.dispatch]
  · intro a q hq
    simp [Instruments.onSocketEnd, cmdNoResult, JVal.getField, lookupField, isCmdTag,
      CommandHandler.handleCommand, h, hq, CommandHandler.waitForCommand,
      CommandHandler.dispatch]

/-- Witness for C6: in-flight command 7 fires with `false` and pending
command "d" is dispatched. -/
theorem missingResultFiresFalse_witness :
    (({ Instruments.create ⟨none, 0, false, false⟩ with
        routerHandler := ⟨some ⟨"c", 7⟩, [⟨"d", 8⟩], false⟩ } : Instruments).onSocketEnd
          (some cmdNoResult)).2
      = [.chEvent (.fired 7 (.bool false)), .chEvent (.sent "d")] :=
  ((missingResultFiresFalse _ ⟨"c", 7⟩ rfl).2.2 ⟨"d", 8⟩ [] rfl).2.2

/-- C7: when the buffered socket bytes fail to parse as JSON, the channel
synthesizes the fixed sentinel `UNKNOWN_ERROR` result routed as a `cmd`
event: the in-flight command's callback fires with the sentinel, the
handler stays attached, and the queue advances normally, so the channel
remains usable for subsequent commands. -/
theorem malformedPayloadSentinel (i : Instruments) (e : Entry)
    (h : i.routerHandler.curCommand = some e) :
    ((i.onSocketEnd none).2).head? = some (.chEvent (.fired e.cbId UNKNOWN_ERROR)) ∧
    (i.onSocketEnd none).1.commandHandlerAttached = i.commandHandlerAttached ∧
    (i.routerHandler.commandQueue = [] →
      (i.onSocketEnd none).1.routerHandler.curCommand = none ∧
      (i.onSocketEnd none).1.routerHandler.onReceiveCommand = true ∧
      (i.onSocketEnd none).2 = [.chEvent (.fired e.cbId UNKNOWN_ERROR)]) ∧
    (∀ (a : Entry) (q : List Entry), i.routerHandler.commandQueue = a :: q →
      (i.onSocketEnd none).1.routerHandler.curCommand = some a ∧
      (i.onSocketEnd none).1.routerHandler.commandQueue = q ∧
      (i.onSocketEnd none).2
        = [.chEvent (.fired e.cbId UNKNOWN_ERROR), .chEvent (.sent a.cmd)]) := by
  refine ⟨?_, ?_, ?_, ?_⟩
  · simp [Instruments.onSocketEnd, JVal.getField, lookupField, isCmdTag,
      CommandHandler.handleCommand, h, CommandHandler.waitForCommand, CommandHandler.dispatch]
  · simp [Instruments.onSocketEnd, JVal.getField, lookupField, isCmdTag]
  · intro hq
    simp [Instruments.onSocketEnd, JVal.getField, lookupField, isCmdTag,
      CommandHandler.handleCommand, h, hq, CommandHandler.waitForCommand,
      CommandHandler.dispatch]
  · intro a q hq
    simp [Instruments.onSocketEnd, JVal.getField, lookupField, isCmdTag,
      CommandHandler.handleCommand, h, hq, CommandHandler.waitForCommand,
      CommandHandler.dispatch]

/-- Witness for C7: a parse failure fires in-flight command 7 with the
sentinel. -/
theorem malformedPayloadSentinel_witness :
    (({ Instruments.create ⟨none, 0, false, false⟩ with
        routerHandler := ⟨some ⟨"c", 7⟩, [], false⟩ } : Instruments).onSocketEnd none).2
      = [.chEvent (.fired 7 UNKNOWN_ERROR)] :=
  ((malformedPayloadSentinel _ ⟨"c", 7⟩ rfl).2.2.1 rfl).2.2

/-- C8 (amended): a delivery carrying a result while no command is in
flight fires no callback; with no pending entries the pending queue and the
in-flight slot are unchanged (only the dispatch hook is registered); with
pending entries the delivery additionally dispatches the head entry into
the in-flight slot (still without firing any callback or dropping any
entry).  The counterexample `strayResultMovesPendingEntry` shows the
original "queue state is unchanged" wording fails when entries are
pending. -/
theorem strayResultFiresNothing (i : Instruments) (v : JVal)
    (h : i.routerHandler.curCommand = none) :
    firedsI (i.onSocketEnd (some (cmdWithResult v))).2 = [] ∧
    (i.routerHandler.commandQueue = [] →
      (i.onSocketEnd (some (cmdWithResult v))).1.routerHandler.curCommand = none ∧
      (i.onSocketEnd (some (cmdWithResult v))).1.routerHandler.commandQueue = [] ∧
      (i.onSocketEnd (some (cmdWithResult v))).2 = []) ∧
    (∀ (a : Entry) (q : List Entry), i.routerHandler.commandQueue = a :: q →
      (i.onSocketEnd (some (cmdWithResult v))).1.routerHandler.curCommand = some a ∧
      (i.onSocketEnd (some (cmdWithResult v))).1.routerHandler.commandQueue = q ∧
      (i.onSocketEnd (some (cmdWithResult v))).2 = [.chEvent (.sent a.cmd)]) := by
  refine ⟨?_, ?_, ?_⟩
  · simp [Instruments.onSocketEnd, cmdWithResult, JVal.getField, lookupField, isCmdTag,
      CommandHandler.handleCommand, h, CommandHandler.waitForCommand, CommandHandler.dispatch]
    cases hq : i.routerHandler.commandQueue <;>
      simp [firedsI, firedId?_sent]
  · intro hq
    simp [Instruments.onSocketEnd, cmdWithResult, JVal.getField, lookupField, isCmdTag,
      CommandHandler.handleCommand, h, hq, CommandHandler.waitForCommand,
      CommandHandler.dispatch]
  · intro a q hq
    simp [Instruments.onSocketEnd, cmdWithResult, JVal.getField, lookupField, isCmdTag,
      CommandHandler.handleCommand, h, hq, CommandHandler.waitForCommand,
      CommandHandler.dispatch]

/-- Witness for C8: a stray result on an idle channel fires nothing. -/
theorem strayResultFiresNothing_witness :
    firedsI (({ Instruments.create ⟨none, 0, false, false⟩ with
        routerHandler := ⟨none, [], false⟩ } : Instruments).onSocketEnd
          (some (cmdWithResult (.bool true)))).2 = [] :=
  (strayResultFiresNothing _ (.bool true) rfl).1

/-- Counterexample for C8 as stated: with pending entry "a" and nothing in
flight, a stray result changes the queue state: the entry moves into the
in-flight slot (no callback fires). -/
theorem strayResultMovesPendingEntry :
    ({ Instruments.create ⟨none, 0, false, false⟩ with
        routerHandler := ⟨none, [⟨"a", 1⟩], false⟩ } : Instruments).routerHandler.commandQueue
      = [⟨"a", 1⟩] ∧
    (({ Instruments.create ⟨none, 0, false, false⟩ with
        routerHandler := ⟨none, [⟨"a", 1⟩], false⟩ } : Instruments).onSocketEnd
          (some (cmdWithResult (.bool true)))).1.routerHandler.commandQueue = [] ∧
    (({ Instruments.create ⟨none, 0, false, false⟩ with
        routerHandler := ⟨none, [⟨"a", 1⟩], false⟩ } : Instruments).onSocketEnd
          (some (cmdWithResult (.bool true)))).1.routerHandler.curCommand = some ⟨"a", 1⟩ ∧
    firedsI (({ Instruments.create ⟨none, 0, false, false⟩ with
        routerHandler := ⟨none, [⟨"a", 1⟩], false⟩ } : Instruments).onSocketEnd
          (some (cmdWithResult (.bool true)))).2 = [] :=
  ⟨rfl, rfl, rfl, rfl⟩

/-- C10 (amended): after exit cleanup the command handler property is
nulled, so any subsequent `sendCommand` on the session fails (throws on the
null property) rather than queueing, and the cleaned handler has no
in-flight entry or dispatch hook, so a single stray delivery fires no
callback.  As `staleQueuedCallbackCanFire` shows, the pending queue itself
is not cleared, so the stronger "no stale callback can ever fire" fails. -/
theorem cleanupDetachesHandler (i : Instruments) :
    i.cleanupInstruments.commandHandlerAttached = false ∧
    (∀ (c : String) (id : Nat), i.cleanupInstruments.sendCommandI c id = none) ∧
    i.cleanupInstruments.routerHandler.curCommand = none ∧
    i.cleanupInstruments.routerHandler.onReceiveCommand = false ∧
    (∀ res : Option JVal,
      fireds ((i.cleanupInstruments.routerHandler).handleCommand res).2 = []) := by
  refine ⟨rfl, ?_, rfl, rfl, ?_⟩
  · intro c id
    simp [Instruments.sendCommandI, Instruments.cleanupInstruments]
  · intro res
    cases res <;>
      simp [Instruments.cleanupInstruments, CommandHandler.clean,
        CommandHandler.handleCommand, CommandHandler.waitForCommand,
        CommandHandler.dispatch] <;>
      cases hq : i.routerHandler.commandQueue <;>
      simp [fireds, firedId?_sent]

/-- Witness for C10: a cleaned-up session refuses `sendCommand`. -/
theorem cleanupDetachesHandler_witness :
    ({ Instruments.create ⟨none, 0, false, false⟩ with
        routerHandler := ⟨some ⟨"b", 5⟩, [], false⟩ } :
        Instruments).cleanupInstruments.commandHandlerAttached = false ∧
    ({ Instruments.create ⟨none, 0, false, false⟩ with
        routerHandler := ⟨some ⟨"b", 5⟩, [], false⟩ } :
        Instruments).cleanupInstruments.sendCommandI "x" 3 = none :=
  ⟨(cleanupDetachesHandler _).1, (cleanupDetachesHandler _).2.1 "x" 3⟩

/-- Counterexample for C10 as stated: cleanup leaves queued entry 9 in the
orphaned handler object still bound to the event router; two stray
deliveries after cleanup dispatch it and fire its stale callback. -/
theorem staleQueuedCallbackCanFire :
    ({ Instruments.create ⟨none, 0, false, false⟩ with
        routerHandler := ⟨some ⟨"b", 5⟩, [⟨"c", 9⟩], false⟩ } :
        Instruments).cleanupInstruments.commandHandlerAttached = false ∧
    ((({ Instruments.create ⟨none, 0, false, false⟩ with
        routerHandler := ⟨some ⟨"b", 5⟩, [⟨"c", 9⟩], false⟩ } :
        Instruments).cleanupInstruments.onSocketEnd
          (some cmdNoResult)).1.onSocketEnd (some (cmdWithResult (.bool true)))).2
      = [.chEvent (.fired 9 (.bool true))] :=
  ⟨rfl, rfl⟩


theorem clearGo_normal_append (l cs : List Char) (h : ∀ c ∈ l, c ≠ '\n') :
    clearGo .normal (l ++ cs) = l ++ clearGo .normal cs := by
  induction l with
  | nil => rfl
  | cons a t ih =>
    have ha : a ≠ '\n' := h a (List.mem_cons_self a t)
    simp only [List.cons_append, clearGo, if_neg ha, List.append_eq]
    rw [ih (fun c hc => h c (List.mem_cons_of_mem a hc))]

theorem clearGo_stars_replicate (k : Nat) (cs : List Char) :
    clearGo .stars (List.replicate k '*' ++ cs) = clearGo .stars cs := by
  induction k with
  | zero => rfl
  | succ n ih => simp [List.replicate_succ, clearGo, ih]

theorem clearGo_sawNl_noStar (cs : List Char) (h : cs.head? ≠ some '*') :
    clearGo .sawNl cs = '\n' :: clearGo .normal cs := by
  match cs with
  | [] => rfl
  | c :: cs =>
    simp at h
    by_cases hc : c = '\n'
    · subst hc; simp [clearGo]
    · simp [clearGo, h, hc]

theorem clearGo_start_noStar (cs : List Char) (h : cs.head? ≠ some '*') :
    clearGo .start cs = clearGo .normal cs := by
  match cs with
  | [] => rfl
  | c :: cs =>
    simp at h
    simp [clearGo, h]

theorem clearGo_normal_nl (cs : List Char) :
    clearGo .normal ('\n' :: cs) = clearGo .sawNl cs := by
  simp [clearGo]

theorem clearGo_stars_nl (cs : List Char) :
    clearGo .stars ('\n' :: cs) = clearGo .normal cs := by
  simp [clearGo]

theorem clearGo_sawNl_star (cs : List Char) :
    clearGo .sawNl ('*' :: cs) = clearGo .stars cs := by
  simp [clearGo]

theorem goodLine_no_nl (g : String) (h : goodLine g = true) : ∀ c ∈ g.data, c ≠ '\n' := by
  intro c hc
  simp only [goodLine, Bool.and_eq_true, List.all_eq_true] at h
  have := h.1 c hc
  simpa using this

theorem renderSegs_headNoStar (segs : List Seg) (hok : linesOk segs = true)
    (hnf : notFillerHead segs = true) : (renderSegs segs).head? ≠ some '*' := by
  match segs with
  | [] => simp [renderSegs]
  | .line g :: rest =>
    simp only [linesOk, Bool.and_eq_true] at hok
    have hg : g.data.head? ≠ some '*' := by
      have := hok.1
      simp only [goodLine, Bool.and_eq_true] at this
      simpa using this.2
    cases hd : g.data with
    | nil => simp [renderSegs, hd]
    | cons c t =>
      simp only [renderSegs, hd, List.cons_append, List.head?_cons]
      rw [hd] at hg
      simpa using hg
  | .filler k :: rest => simp [notFillerHead] at hnf

theorem noConsecFiller_tail (s : Seg) (rest : List Seg)
    (h : noConsecFiller (s :: rest) = true) : noConsecFiller rest = true := by
  match s, rest with
  | .line g, rest => simpa [noConsecFiller] using h
  | .filler k, [] => rfl
  | .filler k, .line g :: r2 => simpa [noConsecFiller] using h
  | .filler k, .filler k2 :: r2 => simp [noConsecFiller] at h

theorem clearGo_normal_renderSegs (segs : List Seg)
    (hok : linesOk segs = true) (hnc : noConsecFiller segs = true) :
    clearGo .normal (renderSegs segs) = clearedMid segs := by
  induction segs using clearedMid.induct with
  | case1 => rfl
  | case2 k rest ih =>
    -- filler k :: rest
    have hnfr : notFillerHead rest = true := by
      match rest with
      | [] => rfl
      | .line g :: r2 => rfl
      | .filler k2 :: r2 => simp [noConsecFiller] at hnc
    have hokr : linesOk rest = true := by simpa [linesOk] using hok
    have hncr : noConsecFiller rest = true := noConsecFiller_tail _ _ hnc
    calc clearGo .normal (renderSegs (.filler k :: rest))
        = List.replicate (k + 1) '*' ++
            clearGo .normal ('\n' :: renderSegs rest) := by
          simp only [renderSegs]
          exact clearGo_normal_append _ _ (by simp)
      _ = List.replicate (k + 1) '*' ++ clearGo .sawNl (renderSegs rest) := by
          rw [clearGo_normal_nl]
      _ = List.replicate (k + 1) '*' ++ '\n' :: clearGo .normal (renderSegs rest) := by
          rw [clearGo_sawNl_noStar _ (renderSegs_headNoStar rest hokr hnfr)]
      _ = List.replicate (k + 1) '*' ++ '\n' :: clearedMid rest := by
          rw [ih hokr hncr]
      _ = clearedMid (.filler k :: rest) := by simp [clearedMid]
  | case3 g k2 rest2 ih =>
    -- line g :: filler k2 :: rest2
    have hokg : goodLine g = true := by
      simp only [linesOk, Bool.and_eq_true] at hok; exact hok.1
    have hokr : linesOk rest2 = true := by
      simp only [linesOk, Bool.and_eq_true] at hok
      simpa [linesOk] using hok.2
    have hncr : noConsecFiller rest2 = true :=
      noConsecFiller_tail _ _ (noConsecFiller_tail _ _ hnc)
    calc clearGo .normal (renderSegs (.line g :: .filler k2 :: rest2))
        = g.data ++ clearGo .normal
            ('\n' :: (List.replicate (k2 + 1) '*' ++ '\n' :: renderSegs rest2)) := by
          simp only [renderSegs]
          exact clearGo_normal_append _ _ (goodLine_no_nl g hokg)
      _ = g.data ++ clearGo .sawNl
            ('*' :: (List.replicate k2 '*' ++ '\n' :: renderSegs rest2)) := by
          rw [clearGo_normal_nl]
          simp [List.replicate_succ]
      _ = g.data ++ clearGo .stars (List.replicate k2 '*' ++ '\n' :: renderSegs rest2) := by
          rw [clearGo_sawNl_star]
      _ = g.data ++ clearGo .normal (renderSegs rest2) := by
          rw [clearGo_stars_replicate, clearGo_stars_nl]
      _ = g.data ++ clearedMid rest2 := by rw [ih hokr hncr]
      _ = clearedMid (.line g :: .filler k2 :: rest2) := by simp [clearedMid]
  | case4 g rest hne ih =>
    -- line g :: rest, rest without a leading filler
    have hokg : goodLine g = true := by
      simp only [linesOk, Bool.and_eq_true] at hok; exact hok.1
    have hokr : linesOk rest = true := by
      simp only [linesOk, Bool.and_eq_true] at hok; exact hok.2
    have hncr : noConsecFiller rest = true := noConsecFiller_tail _ _ hnc
    have hnfr : notFillerHead rest = true := by
      match rest with
      | [] => rfl
      | .line g2 :: r2 => rfl
      | .filler k2 :: r2 => exact absurd rfl (hne k2 r2)
    calc clearGo .normal (renderSegs (.line g :: rest))
        = g.data ++ clearGo .normal ('\n' :: renderSegs rest) := by
          simp only [renderSegs]
          exact clearGo_normal_append _ _ (goodLine_no_nl g hokg)
      _ = g.data ++ clearGo .sawNl (renderSegs rest) := by rw [clearGo_normal_nl]
      _ = g.data ++ '\n' :: clearGo .normal (renderSegs rest) := by
          rw [clearGo_sawNl_noStar _ (renderSegs_headNoStar rest hokr hnfr)]
      _ = g.data ++ '\n' :: clearedMid rest := by rw [ih hokr hncr]
      _ = clearedMid (.line g :: rest) := by
          match rest with
          | [] => rfl
          | .line g2 :: r2 => rfl
          | .filler k2 :: r2 => exact absurd rfl (hne k2 r2)


theorem clearBufferChars_segs (segs : List Seg) (hok : segsOk segs = true) :
    clearBufferChars (String.mk (renderSegs segs)) = String.mk (cleared segs) := by
  have hl : linesOk segs = true := by
    simp only [segsOk, Bool.and_eq_true] at hok; exact hok.1
  have hnc : noConsecFiller segs = true := by
    simp only [segsOk, Bool.and_eq_true] at hok; exact hok.2
  unfold clearBufferChars
  congr 1
  show clearGo .start (renderSegs segs) = cleared segs
  match segs with
  | [] => rfl
  | .filler k :: rest =>
    have hokr : linesOk rest = true := by simpa [linesOk] using hl
    have hncr : noConsecFiller rest = true := noConsecFiller_tail _ _ hnc
    have hnfr : notFillerHead rest = true := by
      match rest with
      | [] => rfl
      | .line g :: r2 => rfl
      | .filler k2 :: r2 => simp [noConsecFiller] at hnc
    calc clearGo .start (renderSegs (.filler k :: rest))
        = clearGo .stars (List.replicate k '*' ++ '\n' :: renderSegs rest) := by
          simp [renderSegs, List.replicate_succ, clearGo]
      _ = clearGo .normal (renderSegs rest) := by
          rw [clearGo_stars_replicate, clearGo_stars_nl]
      _ = clearedMid rest := clearGo_normal_renderSegs rest hokr hncr
      _ = cleared (.filler k :: rest) := rfl
  | .line g :: rest =>
    have hhd : (renderSegs (.line g :: rest)).head? ≠ some '*' :=
      renderSegs_headNoStar _ hl rfl
    rw [clearGo_start_noStar _ hhd, clearGo_normal_renderSegs _ hl hnc]
    rfl


theorem isPrefixOf_append_self (l r : List Char) : l.isPrefixOf (l ++ r) = true := by
  induction l with
  | nil => simp [List.isPrefixOf]
  | cons a t ih => simp [List.isPrefixOf, ih]

theorem lit2_no_match (cs : List Char) (h : cs.head? ≠ some 'O') :
    LIT2.isPrefixOf cs = false := by
  cases cs with
  | nil => rfl
  | cons c t =>
    simp only [List.head?_cons, ne_eq, Option.some.injEq] at h
    show List.isPrefixOf ('O' :: "utput : ".data) (c :: t) = false
    simp [List.isPrefixOf, Ne.symm h]

theorem lit1_no_match (c : Char) (cs : List Char) (h : c ≠ 'I') :
    LIT1.isPrefixOf (c :: cs) = false := by
  show List.isPrefixOf ('I' :: "nstruments Trace Complete".data) (c :: cs) = false
  simp [List.isPrefixOf, Ne.symm h]

theorem takeWhile_append_all (l r : List Char) (p : Char → Bool)
    (h : ∀ c ∈ l, p c = true) :
    (l ++ r).takeWhile p = l ++ r.takeWhile p := by
  induction l with
  | nil => rfl
  | cons a t ih =>
    have ha := h a (List.mem_cons_self a t)
    simp only [List.cons_append, List.takeWhile_cons, ha, if_true]
    rw [ih (fun c hc => h c (List.mem_cons_of_mem a hc))]

theorem tryDotSplit_skip (cs : List Char) (k m : Nat)
    (h : ∀ j, k < j → j ≤ k + m → LIT2.isPrefixOf (cs.drop j) = false) :
    tryDotSplit cs (k + m) = tryDotSplit cs k := by
  induction m with
  | zero => rfl
  | succ m ih =>
    have hj : LIT2.isPrefixOf (cs.drop (k + m + 1)) = false :=
      h (k + m + 1) (by omega) (by omega)
    show tryDotSplit cs (k + m + 1) = tryDotSplit cs k
    rw [show tryDotSplit cs (k + m + 1) =
          (if LIT2.isPrefixOf (cs.drop (k + m + 1)) then
            match tryCapture ((cs.drop (k + m + 1)).drop LIT2.length) with
            | some cap => some cap
            | none => tryDotSplit cs (k + m)
          else tryDotSplit cs (k + m)) from rfl]
    rw [hj]
    simp only [Bool.false_eq_true, if_false]
    exact ih (fun j h1 h2 => h j h1 (by omega))


theorem matchAt_marker (p post : List Char) (hp : p ≠ [])
    (hpO : ∀ c ∈ p, c ≠ 'O') (hpP : ∀ c ∈ p, c ≠ ')') (hpN : ∀ c ∈ p, c ≠ '\n')
    (hpost : post = [] ∨ post.head? = some '\n') :
    matchAt (LIT1 ++ (MIDA ++ (LIT2 ++ (p ++ ')' :: post)))) = some p := by
  have hpre : LIT1.isPrefixOf (LIT1 ++ (MIDA ++ (LIT2 ++ (p ++ ')' :: post)))) = true :=
    isPrefixOf_append_self LIT1 _
  have htw : (MIDA ++ (LIT2 ++ (p ++ ')' :: post))).takeWhile (fun c => c != '\n')
      = MIDA ++ (LIT2 ++ (p ++ [')'])) := by
    rw [takeWhile_append_all MIDA _ _ (by decide),
        takeWhile_append_all LIT2 _ _ (by decide),
        takeWhile_append_all p _ _ (fun c hc => by simpa using hpN c hc)]
    rcases hpost with hpost | hpost
    · subst hpost; rfl
    · cases post with
      | nil => rfl
      | cons c t =>
        simp only [List.head?_cons, Option.some.injEq] at hpost
        subst hpost
        simp [List.takeWhile_cons]
  have hlen : (MIDA ++ (LIT2 ++ (p ++ [')']))).length = 25 + (10 + p.length) := by
    simp only [List.length_append, List.length_cons, List.length_nil]
    rw [show MIDA.length = 25 from by decide, show LIT2.length = 9 from by decide]
    omega
  have hfail : ∀ j, 25 < j → j ≤ 25 + (10 + p.length) →
      LIT2.isPrefixOf ((MIDA ++ (LIT2 ++ (p ++ ')' :: post))).drop j) = false := by
    intro j h1 h2
    apply lit2_no_match
    have hdrop : (MIDA ++ (LIT2 ++ (p ++ ')' :: post))).drop j
        = (LIT2 ++ (p ++ ')' :: post)).drop (j - 25) := by
      have hEq : MIDA.length + (j - 25) = j := by
        rw [show MIDA.length = 25 from by decide]; omega
      have hd : (MIDA ++ (LIT2 ++ (p ++ ')' :: post))).drop (MIDA.length + (j - 25))
          = (LIT2 ++ (p ++ ')' :: post)).drop (j - 25) := List.drop_append (j - 25)
      rw [hEq] at hd
      exact hd
    rw [hdrop, List.head?_drop]
    rw [List.getElem?_append]
    rw [show LIT2.length = 9 from by decide]
    by_cases h9 : j - 25 < 9
    · rw [if_pos h9]
      have hLIT : ∀ jj : Nat, jj < 9 → 1 ≤ jj → LIT2[jj]? ≠ some 'O' := by decide
      exact hLIT (j - 25) h9 (by omega)
    · rw [if_neg h9]
      rw [List.getElem?_append]
      by_cases hpl : j - 25 - 9 < p.length
      · rw [if_pos hpl]
        intro hcon
        exact hpO _ (List.getElem?_mem hcon) rfl
      · rw [if_neg hpl]
        have : j - 25 - 9 - p.length = 0 ∨ j - 25 - 9 - p.length = 1 := by omega
        rcases this with h0 | h0 <;> rw [h0]
        · simp
        · simp only [List.getElem?_cons_succ]
          rcases hpost with hpost | hpost
          · subst hpost; simp
          · cases post with
            | nil => simp
            | cons c t =>
              simp only [List.head?_cons, Option.some.injEq] at hpost
              subst hpost
              simp
  have hd25 : (MIDA ++ (LIT2 ++ (p ++ ')' :: post))).drop 25 = LIT2 ++ (p ++ ')' :: post) := by
    rw [show (25 : Nat) = MIDA.length from by decide]
    exact List.drop_left MIDA _
  have hcapture : tryCapture ((LIT2 ++ (p ++ ')' :: post)).drop LIT2.length) = some p := by
    rw [List.drop_left LIT2 _]
    unfold tryCapture
    have hcap : (p ++ ')' :: post).takeWhile (fun c => c != ')') = p := by
      rw [takeWhile_append_all p _ _ (fun c hc => by simpa using hpP c hc)]
      simp [List.takeWhile_cons]
    rw [hcap]
    rw [if_pos]
    constructor
    · cases p with
      | nil => exact absurd rfl hp
      | cons a t => simp
    · rw [List.drop_left p _]
      simp
  show (if LIT1.isPrefixOf (LIT1 ++ (MIDA ++ (LIT2 ++ (p ++ ')' :: post)))) then
      tryDotSplit ((LIT1 ++ (MIDA ++ (LIT2 ++ (p ++ ')' :: post)))).drop LIT1.length)
        (((LIT1 ++ (MIDA ++ (LIT2 ++ (p ++ ')' :: post)))).drop LIT1.length).takeWhile
          (fun c => c != '\n')).length
    else none) = some p
  rw [hpre, if_pos rfl, List.drop_left LIT1 _, htw, hlen,
      tryDotSplit_skip _ 25 (10 + p.length) hfail]
  show (if LIT2.isPrefixOf ((MIDA ++ (LIT2 ++ (p ++ ')' :: post))).drop 25) then
      match tryCapture (((MIDA ++ (LIT2 ++ (p ++ ')' :: post))).drop 25).drop LIT2.length) with
      | some cap => some cap
      | none => tryDotSplit (MIDA ++ (LIT2 ++ (p ++ ')' :: post))) 24
    else tryDotSplit (MIDA ++ (LIT2 ++ (p ++ ')' :: post))) 24) = some p
  rw [hd25]
  rw [isPrefixOf_append_self LIT2 (p ++ ')' :: post)]
  rw [if_pos rfl, hcapture]


theorem traceDirGo_marker (p post : List Char) (hp : p ≠ [])
    (hpO : ∀ c ∈ p, c ≠ 'O') (hpP : ∀ c ∈ p, c ≠ ')') (hpN : ∀ c ∈ p, c ≠ '\n')
    (hpost : post = [] ∨ post.head? = some '\n') :
    traceDirGo (LIT1 ++ (MIDA ++ (LIT2 ++ (p ++ ')' :: post)))) = some p := by
  have hm := matchAt_marker p post hp hpO hpP hpN hpost
  have hcons : LIT1 ++ (MIDA ++ (LIT2 ++ (p ++ ')' :: post)))
      = 'I' :: ("nstruments Trace Complete".data ++ (MIDA ++ (LIT2 ++ (p ++ ')' :: post)))) := rfl
  rw [hcons]
  show (match matchAt ('I' :: ("nstruments Trace Complete".data ++
        (MIDA ++ (LIT2 ++ (p ++ ')' :: post))))) with
    | some cap => some cap
    | none => traceDirGo ("nstruments Trace Complete".data ++
        (MIDA ++ (LIT2 ++ (p ++ ')' :: post))))) = some p
  rw [← hcons, hm]

theorem traceDirGo_skip (l rest : List Char) (h : ∀ c ∈ l, c = '*' ∨ c = '\n') :
    traceDirGo (l ++ rest) = traceDirGo rest := by
  induction l with
  | nil => rfl
  | cons a t ih =>
    have ha : a ≠ 'I' := by
      rcases h a (List.mem_cons_self a t) with h2 | h2 <;> subst h2 <;> decide
    have hm : matchAt (a :: (t ++ rest)) = none := by
      simp [matchAt, lit1_no_match a _ ha]
    show (match matchAt (a :: (t ++ rest)) with
      | some cap => some cap
      | none => traceDirGo (t ++ rest)) = traceDirGo rest
    rw [hm]
    exact ih (fun c hc => h c (List.mem_cons_of_mem a hc))

theorem lookForTraceDir_marker (pre p post : String)
    (hpre : ∀ c ∈ pre.data, c = '*' ∨ c = '\n') (hp : p.data ≠ [])
    (hpO : ∀ c ∈ p.data, c ≠ 'O') (hpP : ∀ c ∈ p.data, c ≠ ')')
    (hpN : ∀ c ∈ p.data, c ≠ '\n')
    (hpost : post.data = [] ∨ post.data.head? = some '\n') :
    lookForTraceDir (pre ++ MARKER ++ p ++ ")" ++ post) = some p := by
  unfold lookForTraceDir
  have hdata : (pre ++ MARKER ++ p ++ ")" ++ post).data
      = pre.data ++ (LIT1 ++ (MIDA ++ (LIT2 ++ (p.data ++ ')' :: post.data)))) := by
    simp only [String.data_append]
    rw [show MARKER.data = LIT1 ++ (MIDA ++ LIT2) from by decide]
    simp [List.append_assoc]
  rw [hdata, traceDirGo_skip _ _ hpre,
      traceDirGo_marker p.data post.data hp hpO hpP hpN hpost]
  rfl

/-- C9: both stream helpers are pure functions of their chunk.  Filtering a
chunk built from genuine log lines interleaved with filler runs keeps
exactly the genuine lines' text and removes every filler run (a newline
directly before a filler run is consumed by the regex's `(\n|^)` group);
and the completion-marker extractor recovers the embedded artifact path
intact from a marker line regardless of surrounding filler and trailing
output. -/
theorem streamFilterAndMarkerExtraction :
    (∀ segs : List Seg, segsOk segs = true →
      clearBufferChars (String.mk (renderSegs segs)) = String.mk (cleared segs)) ∧
    (∀ pre p post : String,
      (∀ c ∈ pre.data, c = '*' ∨ c = '\n') → p.data ≠ [] →
      (∀ c ∈ p.data, c ≠ 'O') → (∀ c ∈ p.data, c ≠ ')') → (∀ c ∈ p.data, c ≠ '\n') →
      (post.data = [] ∨ post.data.head? = some '\n') →
      lookForTraceDir (pre ++ MARKER ++ p ++ ")" ++ post) = some p) :=
  ⟨clearBufferChars_segs, lookForTraceDir_marker⟩

/-- Witness for C9: a concrete interleaved chunk and a concrete marker line
wrapped in filler. -/
theorem streamFilterAndMarkerExtraction_witness :
    clearBufferChars (String.mk (renderSegs
        [Seg.line "2014-03-21 log line", Seg.filler 7, Seg.line "done"]))
      = String.mk (cleared
        [Seg.line "2014-03-21 log line", Seg.filler 7, Seg.line "done"]) ∧
    lookForTraceDir ("****\n" ++ MARKER ++ "/tmp/instrumentscli0.trace" ++ ")" ++ "\nrest")
      = some "/tmp/instrumentscli0.trace" :=
  ⟨streamFilterAndMarkerExtraction.1 _ (by decide),
   streamFilterAndMarkerExtraction.2 "****\n" "/tmp/instrumentscli0.trace" "\nrest"
     (by decide) (by decide) (by decide) (by decide) (by decide) (by decide)⟩

end AppiumInstruments
